import Mathlib

/-!
Verification of the RubberTapAI inference server (Node.js + tfjs-node).

The repository holds three source files: `server.js` (WebSocket streaming
transport with the `predictLeafDisease` pipeline) and two revisions of the
HTTP upload server (here `predictHandlerV1` and `predictHandlerV2`, the
first and second documents of `src/unnamed/part_000`).

Shallow embedding conventions:
- probabilities are rationals (the JS numbers carry no float-specific
  behavior in any claim; `toFixed(2)` string formatting of the confidence
  is elided, the `* 100` scaling is kept);
- external library behavior (image decoding, the model forward pass,
  base64 decoding, the clock) is a parameter of a `World` record, so every
  theorem quantifies over all library outcomes;
- tfjs tensor lifetime is tracked by a `Trace` record counting tensors
  still live when the invocation returns and model forward passes
  attempted; `tf.tidy` disposes every tensor its body allocated, on the
  normal and on the throwing path (the bodies here return non-tensor
  values, so nothing survives the scope);
- file-system state (the uploaded temp file, unlink attempts, total
  fs accesses) is threaded explicitly through the HTTP handlers.
-/

namespace RubberTap

abbrev Prob := ℚ

abbrev ByteBuf := List Nat

/-- One entry of a PredictionSet.  `className` is an `Option` because the
streaming pipeline indexes `classNames[index]` without a bounds check, and a
JS out-of-range index yields `undefined` (here `none`). -/
structure Prediction where
  className : Option String
  probability : Prob
  deriving DecidableEq

/-- The fixed label list of the classifier. -/
def classNames : List String :=
  ["Oidium Heveae", "Healthy", "Anthracnose", "Leaf Spot"]

/-- The pixel grid produced by `tf.node.decodeImage(buffer, 3)`: 3 channels
forced, 8-bit channel values.  The pixel accessor is total, as the claims
about resizing never read out of range. -/
structure RawImage where
  height : Nat
  width : Nat
  pix : Nat → Nat → Nat → Fin 256

abbrev Tensor3 := List (List (List (Fin 256)))

abbrev Tensor4 := List (List (List (List Prob)))

/-- `.resizeNearestNeighbor([224,224])`: sample the source pixel whose
index scales back from the target index. -/
def resizeNearestNeighbor (img : RawImage) (h w : Nat) : Tensor3 :=
  (List.range h).map fun y =>
    (List.range w).map fun x =>
      (List.range 3).map fun c =>
        img.pix (y * img.height / h) (x * img.width / w) c

/-- `.div(255.0)`: map 8-bit channel values to rationals in the unit
interval. -/
def div255 (t : Tensor3) : List (List (List Prob)) :=
  t.map (List.map (List.map (fun v => (v.val : Prob) / 255)))

/-- `.expandDims()`: add a leading batch dimension of size 1. -/
def expandDims (t : List (List (List Prob))) : Tensor4 :=
  [t]

/-- The Preprocessor: decode result to resized, normalized, batch-expanded
tensor, as chained in all three pipelines. -/
def preprocess (img : RawImage) : Tensor4 :=
  expandDims (div255 (resizeNearestNeighbor img 224 224))

/-- `probabilities.map((prob, index) => ({className: classNames[index],
probability: prob}))`. -/
def buildPredictions (probabilities : List Prob) : List Prediction :=
  probabilities.enum.map fun ip => ⟨classNames.get? ip.1, ip.2⟩

/-- The reducer body of the topPrediction scan:
`(max, p) => (p.probability > max.probability ? p : max)`. -/
def keepMax (m p : Prediction) : Prediction :=
  if m.probability < p.probability then p else m

/-- `predictions.reduce(keepMax, seed)` with seed
`{className: "", probability: 0}`. -/
def topPredictionOf (preds : List Prediction) : Prediction :=
  preds.foldl keepMax ⟨some (""), 0⟩

/-- Outcome record of one inference invocation: tensors still live when
control returns to the caller, and model forward passes attempted. -/
structure Trace where
  liveTensors : Nat
  predictCalls : Nat
  deriving DecidableEq

/-- Behavior of everything outside this repository that the streaming
server calls: model readiness, the tfjs image decoder, the model forward
pass (flat output as read by `dataSync`), Node base64 decoding, the
clock. -/
structure World where
  modelLoaded : Bool
  decodeImage : ByteBuf → Except String RawImage
  runModel : Tensor4 → Except String (List Prob)
  bufferFromBase64 : String → ByteBuf
  now : String

/-- The result object built inside `predictLeafDisease`. -/
structure PredictOut where
  predictions : List Prediction
  topPrediction : Prediction
  confidence : Prob
  timestamp : String
  deriving DecidableEq

/-- `tf.tidy` semantics: every tensor the body allocated is disposed when
the scope exits, whether the body returned or threw; the bodies used here
return non-tensor data, so nothing survives. -/
def tidy {α : Type} (r : Except String α × Trace) : Except String α × Trace :=
  (r.1, ⟨0, r.2.predictCalls⟩)

/-- Body of the `tf.tidy` scope in `predictLeafDisease` (`server.js`
lines 89-126): decode, resize, normalize, expand (four tensors), forward
pass (a fifth), read out, zip with labels, reduce to the top pick; the
inner catch wraps any thrown message in a Prediction-failed message. -/
def streamTidyBody (w : World) (buffer : ByteBuf) :
    Except String PredictOut × Trace :=
  match w.decodeImage buffer with
  | .error e => (.error ("Prediction failed: " ++ e), ⟨0, 0⟩)
  | .ok img =>
    match w.runModel (preprocess img) with
    | .error e => (.error ("Prediction failed: " ++ e), ⟨4, 1⟩)
    | .ok probabilities =>
      let predictions := buildPredictions probabilities
      let topPrediction := topPredictionOf predictions
      (.ok ⟨predictions, topPrediction, topPrediction.probability * 100, w.now⟩,
        ⟨5, 1⟩)

/-- `predictLeafDisease(buffer)` of `server.js`: throw when the model
handle is unset, otherwise run the whole pipeline under `tf.tidy`. -/
def predictLeafDisease (w : World) (buffer : ByteBuf) :
    Except String PredictOut × Trace :=
  if w.modelLoaded then tidy (streamTidyBody w buffer)
  else (.error ("Model not loaded yet"), ⟨0, 0⟩)

/-- Outbound WebSocket messages of the streaming transport. -/
inductive OutMessage where
  | prediction (predictions : List Prediction) (topPrediction : Prediction)
      (confidence : Prob) (timestamp : String)
  | error (error : String) (predictions : List Prediction)
  deriving DecidableEq

/-- What the message handler can do to its connection. -/
inductive WsEffect where
  | send (m : OutMessage)
  | closeConn
  deriving DecidableEq

/-- One inbound WebSocket payload, after the `JSON.parse` attempt:
either the parse threw, or it produced an object whose `type` and
`frameData` fields may each be absent (`undefined`, here `none`). -/
inductive Incoming where
  | invalidJson (parseError : String)
  | jsonMsg (mtype : Option String) (frameData : Option String)
  deriving DecidableEq

/-- `message.frameData.split(",")[1]` followed by
`Buffer.from(base64Data, "base64")`: a missing field or a payload without
a comma makes the next step throw a TypeError; Node base64 decoding
itself is total. -/
def extractFrameBuffer (w : World) (frameData : Option String) :
    Except String ByteBuf :=
  match frameData with
  | none => .error ("Cannot read properties of undefined")
  | some fd =>
    match (fd.splitOn ",").get? 1 with
    | none => .error ("The first argument must be of type string")
    | some b64 => .ok (w.bufferFromBase64 b64)

/-- The `ws.on message` handler of `server.js` lines 38-72: act only on
`type === "frame"` messages, push exactly one prediction or one error
message back, never close the connection. -/
def handleWsMessage (w : World) (inc : Incoming) : List WsEffect × Trace :=
  match inc with
  | .invalidJson e => ([.send (.error e [])], ⟨0, 0⟩)
  | .jsonMsg mtype frameData =>
    if mtype = some ("frame") then
      match extractFrameBuffer w frameData with
      | .error e => ([.send (.error e [])], ⟨0, 0⟩)
      | .ok buffer =>
        match predictLeafDisease w buffer with
        | (.error e, tr) => ([.send (.error e [])], tr)
        | (.ok r, tr) =>
          ([.send (.prediction r.predictions r.topPrediction r.confidence
            r.timestamp)], tr)
    else ([], ⟨0, 0⟩)

/-- Behavior of everything outside this repository that the HTTP upload
server calls: model readiness, the multer-provided upload (`req.file`,
`none` when no file was attached), `fs.readFileSync`, the tfjs decoder and
forward pass, whether `fs.promises.unlink` of an existing file fails, the
clock. -/
structure HttpWorld where
  modelLoaded : Bool
  file : Option String
  readFile : String → Except String ByteBuf
  decodeImage : ByteBuf → Except String RawImage
  runModel : Tensor4 → Except String (List Prob)
  unlinkFails : Bool
  now : String

/-- Durable-storage state threaded through one request: whether the
uploaded temp file still exists, how many unlink attempts were made, and
how many file-system calls were made in total. -/
structure FsState where
  fileExists : Bool
  unlinkAttempts : Nat
  fsOps : Nat
  deriving DecidableEq

/-- `fs.promises.unlink(imagePath)`: one more attempt and one more fs
call; an absent file yields ENOENT, otherwise success removes the file
unless the world makes deletion fail. -/
def fsUnlink (w : HttpWorld) (s : FsState) : Except String Unit × FsState :=
  if s.fileExists = false then
    (.error ("ENOENT"), ⟨s.fileExists, s.unlinkAttempts + 1, s.fsOps + 1⟩)
  else if w.unlinkFails then
    (.error ("EACCES"), ⟨true, s.unlinkAttempts + 1, s.fsOps + 1⟩)
  else
    (.ok (), ⟨false, s.unlinkAttempts + 1, s.fsOps + 1⟩)

/-- The JSON success body of the HTTP endpoint. -/
structure ResponseBody where
  tfjsVersion : String
  tmVersion : String
  modelName : String
  labels : List String
  predictions : List Prediction
  topPrediction : Prediction
  imageSize : Nat
  timeStamp : String
  deriving DecidableEq

/-- The HTTP responses the endpoint can produce: `res.json(response)` or
`res.status(n).json(error-object)`. -/
inductive HttpResponse where
  | json (body : ResponseBody)
  | failure (status : Nat) (error : String) (details : Option String)
  deriving DecidableEq

def notReadyResponse : HttpResponse :=
  .failure 503 ("Model not loaded yet. Please try again later.") none

def shapeMismatchMessage (n : Nat) : String :=
  "Expected " ++ toString classNames.length ++ " output classes but got "
    ++ toString n

/-- The shared catch block of both HTTP versions: log, then
`if (fs.existsSync(imagePath))` attempt one unlink, swallowing its error,
then answer 500 with the original failure as `details`. -/
def catchCleanup (w : HttpWorld) (e : String) (tr : Trace) (s : FsState) :
    HttpResponse × Trace × FsState :=
  let s1 : FsState := ⟨s.fileExists, s.unlinkAttempts, s.fsOps + 1⟩
  if s.fileExists then
    (.failure 500 ("Prediction failed") (some e), tr, (fsUnlink w s1).2)
  else
    (.failure 500 ("Prediction failed") (some e), tr, s1)

/-- `POST /predict`, first revision in `src/unnamed/part_000`: no
`tf.tidy`, no dispose — every tensor the pipeline allocates stays live
after the response; the model forward pass is the only wrapped error;
the shape of the flat output is checked against the label count. -/
def predictHandlerV1 (w : HttpWorld) (s : FsState) :
    HttpResponse × Trace × FsState :=
  if w.modelLoaded = false then (notReadyResponse, ⟨0, 0⟩, s)
  else
    match w.file with
    | none => (.failure 400 ("No image uploaded") none, ⟨0, 0⟩, s)
    | some imagePath =>
      let s1 : FsState := ⟨s.fileExists, s.unlinkAttempts, s.fsOps + 1⟩
      match w.readFile imagePath with
      | .error e => catchCleanup w e ⟨0, 0⟩ s1
      | .ok buffer =>
        match w.decodeImage buffer with
        | .error e => catchCleanup w e ⟨0, 0⟩ s1
        | .ok img =>
          match w.runModel (preprocess img) with
          | .error e =>
            catchCleanup w ("Model prediction failed: " ++ e) ⟨4, 1⟩ s1
          | .ok probabilities =>
            if probabilities.length ≠ classNames.length then
              catchCleanup w (shapeMismatchMessage probabilities.length)
                ⟨5, 1⟩ s1
            else
              let predictions := buildPredictions probabilities
              let topPrediction := topPredictionOf predictions
              (.json ⟨"1.7.4", "2.4.10", "tm-my-image-model", classNames,
                predictions, topPrediction, 224, w.now⟩, ⟨5, 1⟩,
                (fsUnlink w s1).2)

/-- Body of the `tf.tidy` scope of the second HTTP revision: decode
through forward pass, returning the `dataSync` readout; only the forward
pass error is wrapped, a decode error propagates raw to the outer
catch. -/
def v2TidyBody (w : HttpWorld) (buffer : ByteBuf) :
    Except String (List Prob) × Trace :=
  match w.decodeImage buffer with
  | .error e => (.error e, ⟨0, 0⟩)
  | .ok img =>
    match w.runModel (preprocess img) with
    | .error e => (.error ("Model prediction failed: " ++ e), ⟨4, 1⟩)
    | .ok probabilities => (.ok probabilities, ⟨5, 1⟩)

/-- `POST /predict`, second revision in `src/unnamed/part_000`: the same
handler with the tensor pipeline wrapped in `tf.tidy`. -/
def predictHandlerV2 (w : HttpWorld) (s : FsState) :
    HttpResponse × Trace × FsState :=
  if w.modelLoaded = false then (notReadyResponse, ⟨0, 0⟩, s)
  else
    match w.file with
    | none => (.failure 400 ("No image uploaded") none, ⟨0, 0⟩, s)
    | some imagePath =>
      let s1 : FsState := ⟨s.fileExists, s.unlinkAttempts, s.fsOps + 1⟩
      match w.readFile imagePath with
      | .error e => catchCleanup w e ⟨0, 0⟩ s1
      | .ok buffer =>
        let r := tidy (v2TidyBody w buffer)
        match r.1 with
        | .error e => catchCleanup w e r.2 s1
        | .ok probabilities =>
          if probabilities.length ≠ classNames.length then
            catchCleanup w (shapeMismatchMessage probabilities.length) r.2 s1
          else
            let predictions := buildPredictions probabilities
            let topPrediction := topPredictionOf predictions
            (.json ⟨"1.7.4", "2.4.10", "tm-my-image-model", classNames,
              predictions, topPrediction, 224, w.now⟩, r.2,
              (fsUnlink w s1).2)

/-! ### Spec-side comparison definitions -/

/-- Largest probability reachable by a scan seeded with `a`. -/
def maxFrom (a : Prob) (l : List Prediction) : Prob :=
  l.foldl (fun b p => max b p.probability) a

/-- Modelled from the spec: the maximum probability of a PredictionSet,
the scan being seeded with probability 0. -/
def maxProbability (preds : List Prediction) : Prob :=
  maxFrom 0 preds

/-- Modelled from the spec: the top prediction is the first entry in
label order attaining the maximal probability; an all-zero or empty
PredictionSet yields the explicit empty pick. -/
def specTopPrediction (preds : List Prediction) : Prediction :=
  if maxProbability preds = 0 then ⟨some (""), 0⟩
  else
    (preds.find? fun p => decide (p.probability = maxProbability preds)).getD
      ⟨some (""), 0⟩

/-- `q` bounds every probability of the set from above. -/
def probUpperBound (preds : List Prediction) (q : Prediction) : Prop :=
  ∀ p ∈ preds, p.probability ≤ q.probability

/-- Shape of a 4-nested list tensor. -/
def tensorShape4 (t : Tensor4) (a b c d : Nat) : Prop :=
  t.length = a ∧ ∀ x ∈ t, x.length = b ∧ ∀ y ∈ x, y.length = c ∧
    ∀ z ∈ y, z.length = d

/-- Every value of a 4-nested list tensor lies in the closed unit
interval. -/
def tensorValuesIn01 (t : Tensor4) : Prop :=
  ∀ x ∈ t, ∀ y ∈ x, ∀ z ∈ y, ∀ v ∈ z, 0 ≤ v ∧ v ≤ 1

/-- The effect list consists of exactly one structured error message
carrying an empty prediction list (and in particular closes nothing). -/
def isSingleStructuredError (effs : List WsEffect) : Bool :=
  match effs with
  | [WsEffect.send (OutMessage.error _ ps)] => ps.isEmpty
  | _ => false

/-- Streaming-frame processing failure, as enumerated by the spec: the
message did not parse, the embedded payload could not be extracted, or
the predictor threw. -/
def wsProcessingFails (w : World) (inc : Incoming) : Bool :=
  match inc with
  | .invalidJson _ => true
  | .jsonMsg mtype frameData =>
    mtype = some ("frame") &&
      (match extractFrameBuffer w frameData with
       | .error _ => true
       | .ok buffer =>
         match (predictLeafDisease w buffer).1 with
         | .error _ => true
         | .ok _ => false)

/-! ### Concrete fixtures for witnesses and counterexamples -/

/-- A 224 by 224 all-black decoded image. -/
def constImg : RawImage :=
  ⟨224, 224, fun _ _ _ => 0⟩

def oneByteBuf : ByteBuf :=
  [0]

/-- A run in which every external step succeeds and the model emits the
4-class output of the spec scenario. -/
def okWorld : HttpWorld :=
  ⟨true, some ("leaf.jpg"), fun _ => .ok oneByteBuf, fun _ => .ok constImg,
    fun _ => .ok [1/10, 7/10, 1/10, 1/10], false, "t0"⟩

def freshFs : FsState :=
  ⟨true, 0, 0⟩

/-- The streaming counterpart of `okWorld`. -/
def streamOkWorld : World :=
  ⟨true, fun _ => .ok constImg, fun _ => .ok [1/10, 7/10, 1/10, 1/10],
    fun _ => oneByteBuf, "t0"⟩

/-- A streaming world whose model emits five outputs instead of four. -/
def fiveOutWorld : World :=
  ⟨true, fun _ => .ok constImg,
    fun _ => .ok [1/10, 1/10, 1/10, 1/10, 1/10], fun _ => oneByteBuf, "t0"⟩

/-- `okWorld` with the model handle still unset. -/
def notLoadedWorld : HttpWorld :=
  ⟨false, some ("leaf.jpg"), fun _ => .ok oneByteBuf, fun _ => .ok constImg,
    fun _ => .ok [1/10, 7/10, 1/10, 1/10], false, "t0"⟩

/-- `streamOkWorld` with the model handle still unset. -/
def notLoadedStreamWorld : World :=
  ⟨false, fun _ => .ok constImg, fun _ => .ok [1/10, 7/10, 1/10, 1/10],
    fun _ => oneByteBuf, "t0"⟩

/-! ### Helper lemmas for the top-prediction scan -/

lemma keepMax_probability (m p : Prediction) :
    (keepMax m p).probability = max m.probability p.probability := by
  unfold keepMax
  rcases lt_or_ge m.probability p.probability with h | h
  · rw [if_pos h, max_eq_right (le_of_lt h)]
  · rw [if_neg (not_lt.mpr h), max_eq_left h]

lemma maxFrom_cons (a : Prob) (p : Prediction) (l : List Prediction) :
    maxFrom a (p :: l) = maxFrom (max a p.probability) l := rfl

lemma le_maxFrom (a : Prob) (l : List Prediction) : a ≤ maxFrom a l := by
  induction l generalizing a with
  | nil => exact le_refl a
  | cons p l ih =>
    rw [maxFrom_cons]
    exact le_trans (le_max_left _ _) (ih _)

lemma elem_le_maxFrom (a : Prob) {q : Prediction} {l : List Prediction}
    (h : q ∈ l) : q.probability ≤ maxFrom a l := by
  induction l generalizing a with
  | nil => cases h
  | cons p l ih =>
    rw [maxFrom_cons]
    rcases List.mem_cons.mp h with h1 | h1
    · subst h1
      exact le_trans (le_max_right _ _) (le_maxFrom _ _)
    · exact ih _ h1

lemma maxFrom_eq_seed_or_mem (a : Prob) (l : List Prediction) :
    maxFrom a l = a ∨ ∃ q ∈ l, maxFrom a l = q.probability := by
  induction l generalizing a with
  | nil => exact Or.inl rfl
  | cons p l ih =>
    rw [maxFrom_cons]
    rcases ih (max a p.probability) with h1 | ⟨q, hq, hqe⟩
    · rcases max_choice a p.probability with h2 | h2
      · exact Or.inl (h1.trans h2)
      · exact Or.inr ⟨p, List.mem_cons_self _ _, h1.trans h2⟩
    · exact Or.inr ⟨q, List.mem_cons_of_mem _ hq, hqe⟩

lemma foldl_keepMax_of_le {l : List Prediction} {m : Prediction}
    (h : ∀ p ∈ l, p.probability ≤ m.probability) : l.foldl keepMax m = m := by
  induction l with
  | nil => rfl
  | cons p l ih =>
    rw [List.foldl_cons]
    have hp : keepMax m p = m := by
      unfold keepMax
      rw [if_neg (not_lt.mpr (h p (List.mem_cons_self _ _)))]
    rw [hp]
    exact ih fun q hq => h q (List.mem_cons_of_mem _ hq)

lemma foldl_keepMax_probability (l : List Prediction) (m : Prediction) :
    (l.foldl keepMax m).probability = maxFrom m.probability l := by
  induction l generalizing m with
  | nil => rfl
  | cons p l ih =>
    rw [List.foldl_cons, maxFrom_cons, ih, keepMax_probability]

lemma find?_ext {p q : Prediction → Bool} (l : List Prediction)
    (h : ∀ x ∈ l, p x = q x) : l.find? p = l.find? q := by
  induction l with
  | nil => rfl
  | cons a l ih =>
    by_cases hp : p a = true
    · rw [List.find?_cons_of_pos _ hp,
        List.find?_cons_of_pos _ ((h a (List.mem_cons_self _ _)) ▸ hp)]
    · rw [List.find?_cons_of_neg _ hp,
        List.find?_cons_of_neg _ ((h a (List.mem_cons_self _ _)) ▸ hp)]
      exact ih fun x hx => h x (List.mem_cons_of_mem _ hx)

lemma foldl_keepMax_first (l : List Prediction) :
    ∀ m : Prediction, m.probability < maxFrom m.probability l →
      l.foldl keepMax m =
        (l.find? fun p =>
          decide (maxFrom m.probability l ≤ p.probability)).getD m := by
  induction l with
  | nil =>
    intro m h
    exact absurd h (lt_irrefl _)
  | cons p l ih =>
    intro m h
    by_cases hp : maxFrom m.probability (p :: l) ≤ p.probability
    · have hpe : p.probability = maxFrom m.probability (p :: l) :=
        le_antisymm (elem_le_maxFrom _ (List.mem_cons_self _ _)) hp
      rw [List.find?_cons_of_pos _ (by simpa using hp)]
      have hmp : m.probability < p.probability := hpe ▸ h
      have hk : keepMax m p = p := by unfold keepMax; rw [if_pos hmp]
      rw [List.foldl_cons, hk, Option.getD_some]
      exact foldl_keepMax_of_le fun q hq =>
        le_trans (elem_le_maxFrom (max m.probability p.probability) hq)
          (le_of_eq hpe.symm)
    · push_neg at hp
      rw [List.find?_cons_of_neg _ (by simpa using not_le.mpr hp)]
      rw [List.foldl_cons]
      have hseed : (keepMax m p).probability = max m.probability p.probability :=
        keepMax_probability m p
      have hM : maxFrom (keepMax m p).probability l
          = maxFrom m.probability (p :: l) := by
        rw [maxFrom_cons, hseed]
      have hlt : (keepMax m p).probability
          < maxFrom (keepMax m p).probability l := by
        rw [hM, hseed]
        exact max_lt h hp
      have hstep := ih (keepMax m p) hlt
      rw [hM] at hstep
      rw [hstep]
      rcases maxFrom_eq_seed_or_mem (max m.probability p.probability) l with
        h1 | ⟨q, hq, hqe⟩
      · exfalso
        have : maxFrom m.probability (p :: l) = max m.probability p.probability := by
          rw [maxFrom_cons]; exact h1
        rw [this] at h hp
        exact absurd (max_lt h hp) (lt_irrefl _)
      · have hfind : (l.find? fun r =>
            decide (maxFrom m.probability (p :: l) ≤ r.probability)).isSome := by
          rw [List.find?_isSome]
          refine ⟨q, hq, ?_⟩
          simp only [decide_eq_true_eq]
          rw [maxFrom_cons, hqe]
        obtain ⟨r, hr⟩ := Option.isSome_iff_exists.mp hfind
        rw [hr, Option.getD_some, Option.getD_some]

/-- C4: for every PredictionSet, the reduce of the source equals the
first-seen-maximum pick of the spec (ties broken by first occurrence in
label order, an all-zero or empty PredictionSet giving the seeded empty
pick with className "" and probability 0), its probability is the
maximal probability of the scan seeded with 0, and it bounds every
probability of the set from above. -/
theorem topPrediction_correct (preds : List Prediction) :
    topPredictionOf preds = specTopPrediction preds ∧
    (topPredictionOf preds).probability = maxProbability preds ∧
    probUpperBound preds (topPredictionOf preds) := by
  have hprob : (topPredictionOf preds).probability = maxProbability preds := by
    unfold topPredictionOf maxProbability
    exact foldl_keepMax_probability preds ⟨some (""), 0⟩
  refine ⟨?_, hprob, ?_⟩
  · unfold specTopPrediction
    by_cases hM : maxProbability preds = 0
    · rw [if_pos hM]
      exact foldl_keepMax_of_le fun p hp => by
        have := elem_le_maxFrom 0 hp
        unfold maxProbability at hM
        rw [hM] at this
        exact this
    · rw [if_neg hM]
      have h0 : (0 : Prob) < maxProbability preds :=
        lt_of_le_of_ne (le_maxFrom 0 preds) (Ne.symm hM)
      have hfirst := foldl_keepMax_first preds ⟨some (""), 0⟩ h0
      unfold topPredictionOf
      rw [hfirst]
      congr 1
      apply find?_ext
      intro x hx
      have hxle : x.probability ≤ maxProbability preds := elem_le_maxFrom 0 hx
      rw [decide_eq_decide]
      exact ⟨fun h => le_antisymm hxle h, fun h => le_of_eq h.symm⟩
  · intro p hp
    rw [hprob]
    exact elem_le_maxFrom 0 hp

/-! ### Preprocessor and streaming-dispatch theorems -/

/-- C5: for every decode result (any pixel grid with 3 forced channels
and 8-bit values), the Preprocessor yields a tensor of shape
(1, 224, 224, 3) every value of which lies in the closed unit
interval. -/
theorem preprocessor_shape_unit_interval (img : RawImage) :
    tensorShape4 (preprocess img) 1 224 224 3 ∧
    tensorValuesIn01 (preprocess img) := by
  constructor
  · refine ⟨rfl, ?_⟩
    intro x hx
    rw [List.mem_singleton.mp hx]
    constructor
    · simp [div255, resizeNearestNeighbor]
    · intro y hy
      simp only [div255, resizeNearestNeighbor, List.mem_map,
        List.mem_range] at hy
      obtain ⟨row, ⟨a, ha, hrow⟩, hyeq⟩ := hy
      constructor
      · rw [← hyeq, ← hrow]
        simp
      · intro z hz
        rw [← hyeq, ← hrow] at hz
        simp only [List.mem_map, List.mem_range] at hz
        obtain ⟨cell, ⟨b, hb, hcell⟩, hzeq⟩ := hz
        rw [← hzeq, ← hcell]
        simp
  · intro x hx y hy z hz v hv
    simp only [preprocess, expandDims, List.mem_singleton] at hx
    rw [hx] at hy
    simp only [div255, resizeNearestNeighbor, List.mem_map,
      List.mem_range] at hy
    obtain ⟨row, ⟨a, ha, hrow⟩, hyeq⟩ := hy
    rw [← hyeq, ← hrow] at hz
    simp only [List.mem_map, List.mem_range] at hz
    obtain ⟨cell, ⟨b, hb, hcell⟩, hzeq⟩ := hz
    rw [← hzeq, ← hcell] at hv
    simp only [List.mem_map, List.mem_range] at hv
    obtain ⟨c, hc, hveq⟩ := hv
    rw [← hveq]
    constructor
    · exact div_nonneg (Nat.cast_nonneg _) (by norm_num)
    · rw [div_le_one (by norm_num)]
      exact_mod_cast Nat.lt_succ_iff.mp c.isLt

/-- C10: a well-formed JSON message whose declared type is not the frame
type produces no outbound effect at all and leaves the trace at zero. -/
theorem non_frame_message_ignored (w : World)
    (mtype frameData : Option String) (h : mtype ≠ some ("frame")) :
    handleWsMessage w (.jsonMsg mtype frameData) = ([], ⟨0, 0⟩) := by
  simp only [handleWsMessage]
  rw [if_neg h]

theorem non_frame_message_ignored_witness :
    (some ("ping") ≠ some ("frame")) ∧
    handleWsMessage streamOkWorld (.jsonMsg (some ("ping")) none) =
      ([], ⟨0, 0⟩) :=
  ⟨by decide, non_frame_message_ignored streamOkWorld (some ("ping")) none
    (by decide)⟩

/-! ### Error-path theorems -/

lemma catchCleanup_response (w : HttpWorld) (e : String) (tr : Trace)
    (s : FsState) :
    (catchCleanup w e tr s).1 = .failure 500 ("Prediction failed") (some e) := by
  unfold catchCleanup
  split <;> rfl

lemma catchCleanup_trace (w : HttpWorld) (e : String) (tr : Trace)
    (s : FsState) : (catchCleanup w e tr s).2.1 = tr := by
  unfold catchCleanup
  split <;> rfl

lemma fsUnlink_attempts (w : HttpWorld) (s : FsState) :
    (fsUnlink w s).2.unlinkAttempts = s.unlinkAttempts + 1 := by
  unfold fsUnlink
  by_cases h1 : s.fileExists = false
  · rw [if_pos h1]
  · rw [if_neg h1]
    by_cases h2 : w.unlinkFails
    · rw [if_pos h2]
    · rw [if_neg h2]

lemma catchCleanup_attempts (w : HttpWorld) (e : String) (tr : Trace)
    (s : FsState) :
    (catchCleanup w e tr s).2.2.unlinkAttempts =
      if s.fileExists then s.unlinkAttempts + 1 else s.unlinkAttempts := by
  unfold catchCleanup
  by_cases h : s.fileExists = true
  · rw [if_pos h, if_pos h, fsUnlink_attempts]
  · rw [if_neg h, if_neg h]

/-- C9: with the model loaded, a request carrying no uploaded file is
answered 400 with the explicit No-image-uploaded message, the file-system
state (including the access counter) untouched, no tensor allocated and no
forward pass attempted, in both HTTP revisions. -/
theorem no_file_bad_request (w : HttpWorld) (s : FsState)
    (hm : w.modelLoaded = true) (hf : w.file = none) :
    predictHandlerV1 w s =
      (.failure 400 ("No image uploaded") none, ⟨0, 0⟩, s) ∧
    predictHandlerV2 w s =
      (.failure 400 ("No image uploaded") none, ⟨0, 0⟩, s) := by
  unfold predictHandlerV1 predictHandlerV2
  rw [hm, hf]
  exact ⟨rfl, rfl⟩

def noFileWorld : HttpWorld :=
  ⟨true, none, fun _ => .ok oneByteBuf, fun _ => .ok constImg,
    fun _ => .ok [1/10, 7/10, 1/10, 1/10], false, "t0"⟩

theorem no_file_bad_request_witness :
    noFileWorld.modelLoaded = true ∧ noFileWorld.file = none ∧
    predictHandlerV1 noFileWorld freshFs =
      (.failure 400 ("No image uploaded") none, ⟨0, 0⟩, freshFs) :=
  ⟨rfl, rfl, (no_file_bad_request noFileWorld freshFs rfl rfl).1⟩

/-- C6: whenever the model handle is not loaded, both HTTP revisions
answer 503 with the file-system state untouched and no forward pass
attempted, and the streaming handler answers every frame with exactly one
structured error message (closing nothing) while attempting no forward
pass. -/
theorem model_not_loaded_behavior :
    (∀ (w : HttpWorld) (s : FsState), w.modelLoaded = false →
      predictHandlerV1 w s = (notReadyResponse, ⟨0, 0⟩, s) ∧
      predictHandlerV2 w s = (notReadyResponse, ⟨0, 0⟩, s)) ∧
    (∀ (w : World) (frameData : Option String), w.modelLoaded = false →
      isSingleStructuredError
        (handleWsMessage w (.jsonMsg (some ("frame")) frameData)).1 = true ∧
      (handleWsMessage w (.jsonMsg (some ("frame")) frameData)).2 = ⟨0, 0⟩) := by
  constructor
  · intro w s hm
    unfold predictHandlerV1 predictHandlerV2
    rw [hm]
    exact ⟨rfl, rfl⟩
  · intro w frameData hm
    simp only [handleWsMessage, if_true]
    cases hq : extractFrameBuffer w frameData with
    | error e =>
      simp only [hq]
      refine ⟨?_, ?_⟩ <;> trivial
    | ok buffer =>
      have hpl : predictLeafDisease w buffer =
          (.error ("Model not loaded yet"), ⟨0, 0⟩) := by
        unfold predictLeafDisease
        rw [hm]
        rfl
      simp only [hq, hpl]
      refine ⟨?_, ?_⟩ <;> trivial

theorem model_not_loaded_witness :
    notLoadedWorld.modelLoaded = false ∧
    notLoadedStreamWorld.modelLoaded = false ∧
    predictHandlerV1 notLoadedWorld freshFs =
      (notReadyResponse, ⟨0, 0⟩, freshFs) ∧
    isSingleStructuredError (handleWsMessage notLoadedStreamWorld
      (.jsonMsg (some ("frame")) (some ("data:,AAAA")))).1 = true :=
  ⟨rfl, rfl,
    (model_not_loaded_behavior.1 notLoadedWorld freshFs rfl).1,
    (model_not_loaded_behavior.2 notLoadedStreamWorld
      (some ("data:,AAAA")) rfl).1⟩

/-- C7: every streaming frame whose processing fails (parse error,
payload-extraction error, decode error or predictor error) produces
exactly one structured error message with an empty prediction list on the
same connection, and in particular no close. -/
theorem ws_failure_single_error (w : World) (inc : Incoming)
    (h : wsProcessingFails w inc = true) :
    isSingleStructuredError (handleWsMessage w inc).1 = true := by
  cases inc with
  | invalidJson e => rfl
  | jsonMsg mtype frameData =>
    unfold wsProcessingFails at h
    rw [Bool.and_eq_true] at h
    have hm : mtype = some ("frame") := of_decide_eq_true h.1
    have h2 := h.2
    simp only [handleWsMessage]
    rw [if_pos hm]
    cases hx : extractFrameBuffer w frameData with
    | error e =>
      simp only [hx]
      rfl
    | ok buffer =>
      simp only [hx] at h2 ⊢
      cases hp : predictLeafDisease w buffer with
      | mk res tr =>
        cases res with
        | error e => rfl
        | ok r =>
          exfalso
          rw [hp] at h2
          simp at h2

theorem ws_failure_single_error_witness :
    wsProcessingFails streamOkWorld (.invalidJson ("Unexpected token")) =
      true ∧
    isSingleStructuredError
      (handleWsMessage streamOkWorld (.invalidJson ("Unexpected token"))).1 =
      true :=
  ⟨rfl, ws_failure_single_error streamOkWorld
    (.invalidJson ("Unexpected token")) rfl⟩
/-! ### Cleanup and temp-file theorems -/

lemma ite_true_false {α : Sort u} (x y : α) :
    (if (true : Bool) = false then x else y) = y :=
  if_neg (by decide)

lemma catchCleanup_ne_json (w : HttpWorld) (e : String) (tr : Trace)
    (s : FsState) (body : ResponseBody) :
    (catchCleanup w e tr s).1 ≠ .json body := by
  rw [catchCleanup_response]
  exact fun h => HttpResponse.noConfusion h

lemma buildPredictions_length (probs : List Prob) :
    (buildPredictions probs).length = probs.length := by
  simp [buildPredictions]

/-- C3 counterexample: a request that reaches the handler with a file
uploaded while the model handle is unset returns 503 with zero unlink
attempts, the temp file left in place. -/
theorem temp_file_left_behind_503 :
    predictHandlerV1 notLoadedWorld freshFs =
      (notReadyResponse, ⟨0, 0⟩, freshFs) ∧
    notLoadedWorld.file = some ("leaf.jpg") ∧ freshFs.fileExists = true ∧
    (predictHandlerV1 notLoadedWorld freshFs).2.2.unlinkAttempts = 0 :=
  ⟨rfl, rfl, rfl, rfl⟩

/-- C3 amended: on the main processing path (model loaded, file present,
file still on disk) both HTTP revisions attempt the deletion exactly once,
whatever the read, decode, predict and unlink outcomes; on the early
503 and 400 returns the file-system state is untouched, so no deletion is
attempted there. -/
theorem temp_file_unlink_once_amended :
    (∀ (w : HttpWorld) (s : FsState) (p : String),
      w.modelLoaded = true → w.file = some p → s.fileExists = true →
      (predictHandlerV1 w s).2.2.unlinkAttempts = s.unlinkAttempts + 1 ∧
      (predictHandlerV2 w s).2.2.unlinkAttempts = s.unlinkAttempts + 1) ∧
    (∀ (w : HttpWorld) (s : FsState), w.modelLoaded = false ∨ w.file = none →
      (predictHandlerV1 w s).2.2 = s ∧ (predictHandlerV2 w s).2.2 = s) := by
  constructor
  · intro w s p hm hf hfe
    constructor
    · simp only [predictHandlerV1, hm, hf, ite_true_false]
      cases hr : w.readFile p with
      | error e => simp [hr, catchCleanup_attempts, fsUnlink_attempts, hfe]
      | ok buffer =>
        simp only [hr]
        cases hd : w.decodeImage buffer with
        | error e => simp [hd, catchCleanup_attempts, fsUnlink_attempts, hfe]
        | ok img =>
          simp only [hd]
          cases hrm : w.runModel (preprocess img) with
          | error e =>
            simp [hrm, catchCleanup_attempts, fsUnlink_attempts, hfe]
          | ok probs =>
            simp only [hrm]
            split
            all_goals
              simp_all [catchCleanup_attempts, fsUnlink_attempts]
    · simp only [predictHandlerV2, hm, hf, ite_true_false]
      cases hr : w.readFile p with
      | error e => simp [hr, catchCleanup_attempts, fsUnlink_attempts, hfe]
      | ok buffer =>
        simp only [hr]
        cases ht : (tidy (v2TidyBody w buffer)).1 with
        | error e => simp [ht, catchCleanup_attempts, fsUnlink_attempts, hfe]
        | ok probs =>
          simp only [ht]
          split
          all_goals
            simp_all [catchCleanup_attempts, fsUnlink_attempts]
  · intro w s h
    cases hmb : w.modelLoaded with
    | false =>
      unfold predictHandlerV1 predictHandlerV2
      rw [hmb]
      exact ⟨rfl, rfl⟩
    | true =>
      have hf : w.file = none := by
        rcases h with h1 | h1
        · rw [hmb] at h1
          exact absurd h1 (by simp)
        · exact h1
      unfold predictHandlerV1 predictHandlerV2
      rw [hmb, hf]
      exact ⟨rfl, rfl⟩

theorem temp_file_unlink_once_witness :
    okWorld.modelLoaded = true ∧ okWorld.file = some ("leaf.jpg") ∧
    freshFs.fileExists = true ∧
    (predictHandlerV1 okWorld freshFs).2.2.unlinkAttempts = 0 + 1 :=
  ⟨rfl, rfl, rfl,
    (temp_file_unlink_once_amended.1 okWorld freshFs ("leaf.jpg")
      rfl rfl rfl).1⟩

lemma ite_cond_True {α : Sort u} {inst : Decidable True} (x y : α) :
    @ite α True inst x y = x :=
  if_pos trivial

lemma v2TidyBody_congr {w1 w2 : HttpWorld}
    (hdec : w1.decodeImage = w2.decodeImage)
    (hrun : w1.runModel = w2.runModel) : v2TidyBody w1 = v2TidyBody w2 := by
  funext buffer
  unfold v2TidyBody
  rw [hdec, hrun]

/-- C8: the response of both HTTP revisions is determined by model
readiness, the upload and the read, decode and forward-pass outcomes
alone: two runs agreeing on those agree on the response even if one has
a failing unlink and a temp file already deleted; in particular a cleanup
failure is swallowed and never overrides the primary result. -/
theorem cleanup_never_overrides_result (w1 w2 : HttpWorld) (s1 s2 : FsState)
    (hmod : w1.modelLoaded = w2.modelLoaded) (hfile : w1.file = w2.file)
    (hread : w1.readFile = w2.readFile)
    (hdec : w1.decodeImage = w2.decodeImage)
    (hrun : w1.runModel = w2.runModel) (hnow : w1.now = w2.now) :
    (predictHandlerV1 w1 s1).1 = (predictHandlerV1 w2 s2).1 ∧
    (predictHandlerV2 w1 s1).1 = (predictHandlerV2 w2 s2).1 := by
  constructor
  · unfold predictHandlerV1
    rw [hmod, hfile, hread, hdec, hrun, hnow]
    cases hmb : w2.modelLoaded with
    | false => simp only [hmb, ite_cond_True]
    | true =>
      simp only [hmb, ite_true_false]
      cases hfile2 : w2.file with
      | none => rfl
      | some p =>
        simp only [hfile2]
        cases hr : w2.readFile p with
        | error e => simp only [hr, catchCleanup_response]
        | ok buffer =>
          simp only [hr]
          cases hd : w2.decodeImage buffer with
          | error e => simp only [hd, catchCleanup_response]
          | ok img =>
            simp only [hd]
            cases hrm : w2.runModel (preprocess img) with
            | error e => simp only [hrm, catchCleanup_response]
            | ok probs =>
              simp only [hrm]
              by_cases hlen : probs.length = classNames.length <;>
                simp [hlen, catchCleanup_response]
  · unfold predictHandlerV2
    rw [hmod, hfile, hread, hnow, v2TidyBody_congr hdec hrun]
    cases hmb : w2.modelLoaded with
    | false => simp only [hmb, ite_cond_True]
    | true =>
      simp only [hmb, ite_true_false]
      cases hfile2 : w2.file with
      | none => rfl
      | some p =>
        simp only [hfile2]
        cases hr : w2.readFile p with
        | error e => simp only [hr, catchCleanup_response]
        | ok buffer =>
          simp only [hr]
          cases ht : (tidy (v2TidyBody w2 buffer)).1 with
          | error e => simp only [ht, catchCleanup_response]
          | ok probs =>
            simp only [ht]
            by_cases hlen : probs.length = classNames.length <;>
              simp [hlen, catchCleanup_response]

def okWorldUnlinkFails : HttpWorld :=
  ⟨true, some ("leaf.jpg"), fun _ => .ok oneByteBuf, fun _ => .ok constImg,
    fun _ => .ok [1/10, 7/10, 1/10, 1/10], true, "t0"⟩

def goneFs : FsState :=
  ⟨false, 0, 0⟩

theorem cleanup_never_overrides_witness :
    okWorldUnlinkFails.modelLoaded = okWorld.modelLoaded ∧
    okWorldUnlinkFails.file = okWorld.file ∧
    okWorldUnlinkFails.readFile = okWorld.readFile ∧
    okWorldUnlinkFails.decodeImage = okWorld.decodeImage ∧
    okWorldUnlinkFails.runModel = okWorld.runModel ∧
    okWorldUnlinkFails.now = okWorld.now ∧
    (predictHandlerV1 okWorldUnlinkFails goneFs).1 =
      (predictHandlerV1 okWorld freshFs).1 :=
  ⟨rfl, rfl, rfl, rfl, rfl, rfl,
    (cleanup_never_overrides_result okWorldUnlinkFails okWorld goneFs freshFs
      rfl rfl rfl rfl rfl rfl).1⟩

/-! ### Shape-check and tensor-lifetime theorems -/

/-- C2 counterexample: a streaming run whose model emits five outputs
succeeds and returns a PredictionSet of length 5 instead of failing with a
shape-mismatch error. -/
theorem stream_missing_shape_check :
    (predictLeafDisease fiveOutWorld oneByteBuf).1.toOption.map
      (fun r => r.predictions.length) = some 5 := by
  decide

/-- C2 amended: in both HTTP revisions every successful response carries
a PredictionSet of exactly the label-list length 4, and a model output of
any other length is answered 500 with the shape-mismatch message; the
streaming predictor performs no such check and returns a PredictionSet
whose length equals the model output length. -/
theorem prediction_set_length_amended :
    (∀ (w : HttpWorld) (s : FsState) (body : ResponseBody),
      (predictHandlerV1 w s).1 = .json body →
      body.predictions.length = 4) ∧
    (∀ (w : HttpWorld) (s : FsState) (body : ResponseBody),
      (predictHandlerV2 w s).1 = .json body →
      body.predictions.length = 4) ∧
    (∀ (w : HttpWorld) (s : FsState) (p : String) (buffer : ByteBuf)
      (img : RawImage) (probs : List Prob),
      w.modelLoaded = true → w.file = some p → w.readFile p = .ok buffer →
      w.decodeImage buffer = .ok img →
      w.runModel (preprocess img) = .ok probs → probs.length ≠ 4 →
      (predictHandlerV1 w s).1 = .failure 500 ("Prediction failed")
        (some (shapeMismatchMessage probs.length)) ∧
      (predictHandlerV2 w s).1 = .failure 500 ("Prediction failed")
        (some (shapeMismatchMessage probs.length))) ∧
    (∀ (w : World) (buffer : ByteBuf) (img : RawImage) (probs : List Prob),
      w.modelLoaded = true → w.decodeImage buffer = .ok img →
      w.runModel (preprocess img) = .ok probs →
      (predictLeafDisease w buffer).1 =
        .ok ⟨buildPredictions probs, topPredictionOf (buildPredictions probs),
          (topPredictionOf (buildPredictions probs)).probability * 100,
          w.now⟩ ∧
      (buildPredictions probs).length = probs.length) := by
  refine ⟨?_, ?_, ?_, ?_⟩
  · intro w s body h
    cases hmb : w.modelLoaded with
    | false =>
      simp only [predictHandlerV1, hmb, ite_cond_True] at h
      exact absurd h (by simp [notReadyResponse])
    | true =>
      simp only [predictHandlerV1, hmb, ite_true_false] at h
      cases hfile : w.file with
      | none =>
        simp only [hfile] at h
        exact absurd h (by simp)
      | some p =>
        simp only [hfile] at h
        cases hr : w.readFile p with
        | error e =>
          simp only [hr] at h
          exact absurd h (catchCleanup_ne_json _ _ _ _ _)
        | ok buffer =>
          simp only [hr] at h
          cases hd : w.decodeImage buffer with
          | error e =>
            simp only [hd] at h
            exact absurd h (catchCleanup_ne_json _ _ _ _ _)
          | ok img =>
            simp only [hd] at h
            cases hrm : w.runModel (preprocess img) with
            | error e =>
              simp only [hrm] at h
              exact absurd h (catchCleanup_ne_json _ _ _ _ _)
            | ok probs =>
              simp only [hrm] at h
              by_cases hlen : probs.length = classNames.length
              · simp only [if_neg (not_ne_iff.mpr hlen)] at h
                have hb : body.predictions = buildPredictions probs := by
                  have := (HttpResponse.json.injEq _ _).mp h.symm
                  rw [this]
                rw [hb, buildPredictions_length, hlen]
                rfl
              · simp only [if_pos hlen] at h
                exact absurd h (catchCleanup_ne_json _ _ _ _ _)
  · intro w s body h
    cases hmb : w.modelLoaded with
    | false =>
      simp only [predictHandlerV2, hmb, ite_cond_True] at h
      exact absurd h (by simp [notReadyResponse])
    | true =>
      simp only [predictHandlerV2, hmb, ite_true_false] at h
      cases hfile : w.file with
      | none =>
        simp only [hfile] at h
        exact absurd h (by simp)
      | some p =>
        simp only [hfile] at h
        cases hr : w.readFile p with
        | error e =>
          simp only [hr] at h
          exact absurd h (catchCleanup_ne_json _ _ _ _ _)
        | ok buffer =>
          simp only [hr] at h
          cases ht : (tidy (v2TidyBody w buffer)).1 with
          | error e =>
            simp only [ht] at h
            exact absurd h (catchCleanup_ne_json _ _ _ _ _)
          | ok probs =>
            simp only [ht] at h
            by_cases hlen : probs.length = classNames.length
            · simp only [if_neg (not_ne_iff.mpr hlen)] at h
              have hb : body.predictions = buildPredictions probs := by
                have := (HttpResponse.json.injEq _ _).mp h.symm
                rw [this]
              rw [hb, buildPredictions_length, hlen]
              rfl
            · simp only [if_pos hlen] at h
              exact absurd h (catchCleanup_ne_json _ _ _ _ _)
  · intro w s p buffer img probs hm hf hr hd hrm hlen
    have hlen2 : probs.length ≠ classNames.length :=
      fun hh => hlen (hh.trans (by rfl))
    constructor
    · simp only [predictHandlerV1, hm, ite_true_false, hf, hr, hd, hrm]
      rw [if_pos hlen2, catchCleanup_response]
    · have ht : (tidy (v2TidyBody w buffer)).1 = .ok probs := by
        simp only [tidy, v2TidyBody, hd, hrm]
      simp only [predictHandlerV2, hm, ite_true_false, hf, hr, ht]
      rw [if_pos hlen2, catchCleanup_response]
  · intro w buffer img probs hm hd hrm
    refine ⟨?_, buildPredictions_length probs⟩
    have hbody : streamTidyBody w buffer =
        (.ok ⟨buildPredictions probs, topPredictionOf (buildPredictions probs),
          (topPredictionOf (buildPredictions probs)).probability * 100,
          w.now⟩, ⟨5, 1⟩) := by
      simp only [streamTidyBody, hd, hrm]
    simp only [predictLeafDisease, hm, ite_cond_True, tidy, hbody]

/-- The HTTP counterpart of `fiveOutWorld`: everything succeeds but the
model emits five outputs instead of four. -/
def fiveOutHttpWorld : HttpWorld :=
  ⟨true, some ("leaf.jpg"), fun _ => .ok oneByteBuf, fun _ => .ok constImg,
    fun _ => .ok [1/10, 1/10, 1/10, 1/10, 1/10], false, "t0"⟩

theorem prediction_set_length_witness :
    fiveOutHttpWorld.modelLoaded = true ∧
    fiveOutHttpWorld.file = some ("leaf.jpg") ∧
    fiveOutHttpWorld.readFile ("leaf.jpg") = .ok oneByteBuf ∧
    fiveOutHttpWorld.decodeImage oneByteBuf = .ok constImg ∧
    fiveOutHttpWorld.runModel (preprocess constImg) =
      .ok [1/10, 1/10, 1/10, 1/10, 1/10] ∧
    ([1/10, 1/10, 1/10, 1/10, 1/10] : List Prob).length ≠ 4 ∧
    (predictHandlerV1 fiveOutHttpWorld freshFs).1 =
      .failure 500 ("Prediction failed") (some (shapeMismatchMessage 5)) ∧
    (predictHandlerV2 fiveOutHttpWorld freshFs).1 =
      .failure 500 ("Prediction failed") (some (shapeMismatchMessage 5)) ∧
    (buildPredictions [1/10, 1/10, 1/10, 1/10, 1/10]).length =
      ([1/10, 1/10, 1/10, 1/10, 1/10] : List Prob).length :=
  ⟨rfl, rfl, rfl, rfl, rfl, by decide,
    (prediction_set_length_amended.2.2.1 fiveOutHttpWorld freshFs ("leaf.jpg")
      oneByteBuf constImg [1/10, 1/10, 1/10, 1/10, 1/10]
      rfl rfl rfl rfl rfl (by decide)).1,
    (prediction_set_length_amended.2.2.1 fiveOutHttpWorld freshFs ("leaf.jpg")
      oneByteBuf constImg [1/10, 1/10, 1/10, 1/10, 1/10]
      rfl rfl rfl rfl rfl (by decide)).2,
    (prediction_set_length_amended.2.2.2 fiveOutWorld oneByteBuf constImg
      [1/10, 1/10, 1/10, 1/10, 1/10] rfl rfl rfl).2⟩

/-- C1: the first HTTP revision leaves all five pipeline tensors (decode,
resize, normalize, batch-expand, forward-pass output) live after a
successful request, while the streaming path and the second HTTP revision
release every intermediate tensor on every path through their tidy
scope. -/
theorem tensor_release_v1_leak :
    (predictHandlerV1 okWorld freshFs).2.1 = ⟨5, 1⟩ ∧
    (∀ (w : World) (buffer : ByteBuf),
      (predictLeafDisease w buffer).2.liveTensors = 0) ∧
    (∀ (w : HttpWorld) (s : FsState),
      (predictHandlerV2 w s).2.1.liveTensors = 0) := by
  refine ⟨by decide, ?_, ?_⟩
  · intro w buffer
    unfold predictLeafDisease
    by_cases hm : w.modelLoaded = true
    · rw [if_pos hm]
      rfl
    · rw [if_neg hm]
  · intro w s
    cases hmb : w.modelLoaded with
    | false =>
      simp only [predictHandlerV2, hmb, ite_cond_True]
    | true =>
      simp only [predictHandlerV2, hmb, ite_true_false]
      cases hfile : w.file with
      | none => rfl
      | some p =>
        simp only [hfile]
        cases hr : w.readFile p with
        | error e => simp only [hr, catchCleanup_trace]
        | ok buffer =>
          simp only [hr]
          cases ht : (tidy (v2TidyBody w buffer)).1 with
          | error e => simp only [ht, catchCleanup_trace, tidy]
          | ok probs =>
            simp only [ht]
            by_cases hlen : probs.length = classNames.length <;>
              simp [hlen, catchCleanup_trace, tidy]

end RubberTap
